import Mathlib

/-!
Verification of the `rust-challenge-csv` ledger engine against its
specification.  The canonical modules are `src/amount.rs` (the exact
fixed-point `Amount` type, backed by an `i64` scaled by `10^4`) and
`src/client.rs` (the per-account transaction history and the replay that
derives each balance snapshot).  `src/main.rs` is an earlier draft copy and
is not modelled.

Modelling conventions:
* The `i64` backing value of `Amount` is embedded as an unbounded `Int`;
  every claim that concerns machine-width overflow uses the explicitly
  wrapped operation (`wrapI64`, `Amount.subI64`) instead.
* Rust `Vec::push` is list append at the right end; iteration is `foldl`
  in list order, exactly as the `for` loops in `client.rs`.
* The `HashMap<TransactionId, Amount>` of disputed amounts is embedded as
  an association list whose `insert` replaces any existing binding, which
  matches `HashMap::insert` up to the (unobserved) iteration order.
* Rust functions that can `panic!` are embedded with an explicit `panic`
  outcome where a claim is about the error channel.
-/

namespace RustCsv

/-- `type ClientId = u16;` (only compared for equality, so `Nat` suffices). -/
abbrev ClientId := Nat

/-- `type TransactionId = u32;` (only compared for equality, so `Nat` suffices). -/
abbrev TransactionId := Nat

/-- `const DECIMAL_PLACES: u32 = 4;` -/
def DECIMAL_PLACES : Nat := 4

/-- `const AMOUNT_ONE: UnderlyingAmountType = 10.pow(DECIMAL_PLACES);` -/
def AMOUNT_ONE : Int := (10 : Int) ^ DECIMAL_PLACES

/-- `pub struct Amount { value: UnderlyingAmountType }` with
`UnderlyingAmountType = i64`; the backing value is embedded as `Int`. -/
structure Amount where
  value : Int
deriving DecidableEq, Repr

/-- `Amount::new(value)` wraps a raw scaled integer. -/
def Amount.new (value : Int) : Amount := ⟨value⟩

/-- `impl Add for Amount`: addition of the scaled values, idealized to
unbounded `Int` (the machine `i64` addition wraps in release builds and
aborts in debug builds when the exact sum leaves `[-2^63, 2^63)`; where a
claim concerns that boundary, the wrapped `Amount.addI64` below is used
instead). -/
def Amount.add (a b : Amount) : Amount := Amount.new (a.value + b.value)

/-- `impl Sub for Amount`: `Self::new(self.value - other.value)`; the
difference of the scaled values, idealized to unbounded `Int` (no sign or
underflow check exists in `amount.rs`, unlike the draft in `main.rs`; the
machine-precision counterpart with `i64` wrap-around is `Amount.subI64`
below). -/
def Amount.sub (a b : Amount) : Amount := Amount.new (a.value - b.value)

/-- Two's-complement wrap-around into the `i64` range
`[-2^63, 2^63)`; this is what the machine subtraction in `amount.rs`
computes when the exact result overflows (release-profile semantics; a
debug build would abort instead, and in neither profile is the exact
out-of-range difference returned). -/
def wrapI64 (x : Int) : Int := (x + 2 ^ 63) % 2 ^ 64 - 2 ^ 63

/-- `impl Sub for Amount` at machine precision: the `i64` subtraction of
the two scaled values, wrapping on overflow. -/
def Amount.subI64 (a b : Amount) : Amount := Amount.new (wrapI64 (a.value - b.value))

/-- `impl Add for Amount` at machine precision: the `i64` addition of the
two scaled values, wrapping on overflow. -/
def Amount.addI64 (a b : Amount) : Amount := Amount.new (wrapI64 (a.value + b.value))

/-- `Amount::trunc_fract`: `trunc = value / AMOUNT_ONE` with Rust's `i64`
division (truncation toward zero, which `Int.tdiv` matches), and
`fract = value - trunc * AMOUNT_ONE`. -/
def Amount.trunc_fract (a : Amount) : Int × Int :=
  let trunc := Int.tdiv a.value AMOUNT_ONE
  let xx := trunc * AMOUNT_ONE
  let fract := a.value - xx
  (trunc, fract)

/-- Loop body of `count_remove_trailing_zeroes`: repeatedly divide by 10
while the value is a positive multiple of 10, counting the steps.  The
fuel argument (instantiated with the starting value, an upper bound on the
number of iterations) only makes Lean's structural recursion explicit; it
is never exhausted. -/
def crtzGo : Nat → Nat → Nat → Nat × Nat
  | 0, count, value => (count, value)
  | fuel + 1, count, value =>
      if value % 10 = 0 ∧ 0 < value then crtzGo fuel (count + 1) (value / 10)
      else (count, value)

/-- `fn count_remove_trailing_zeroes(value) -> (usize, i64)`: for positive
input, strip trailing decimal zeroes and report how many were stripped;
non-positive input is returned unchanged with count 0 (the `if value > 0`
guard in the source). -/
def count_remove_trailing_zeroes (value : Int) : Nat × Int :=
  if 0 < value then
    let r := crtzGo value.toNat 0 value.toNat
    (r.1, (r.2 : Int))
  else (0, value)

/-- Rust's `{:0>width$}` padding: left-pad with the character `'0'` up to
the requested width. -/
def padZeroLeft (s : String) (width : Nat) : String :=
  String.mk (List.replicate (width - s.length) '0') ++ s

/-- `impl fmt::Display for Amount`: if the fractional remainder is zero,
print just the truncated integer part; otherwise strip trailing zeroes
from the absolute value of the fractional remainder and print
`"{trunc}.{fract:0>width$}"` with `width = DECIMAL_PLACES - count`. -/
def Amount.format (a : Amount) : String :=
  let p := a.trunc_fract
  if p.2 = 0 then toString p.1
  else
    let fractAbs := p.2.natAbs
    let r := count_remove_trailing_zeroes (fractAbs : Int)
    let width := DECIMAL_PLACES - r.1
    toString p.1 ++ "." ++ padZeroLeft (toString r.2) width

/-! ### Parsing (`Amount::deserialize` and `parse_fractional_str`)

`parse_fractional_str` routes the fractional digits through `f32`: it
builds the six-byte buffer `"0.xxxx"` (the first four characters of the
fractional substring, right-padded with `'0'`), parses it with
`f32::from_str` (correctly rounded decimal-to-binary32 conversion), then
computes `floating_point * AMOUNT_ONE as f32` (one correctly rounded
binary32 multiplication; `10000` is exactly representable) and truncates
the product toward zero with `as i64`.  The embedding below performs the
same two round-to-nearest-even binary32 roundings with exact natural-number
arithmetic.  All values that reach the roundings lie in `(0, 2^23)`, far
inside the normal range of `f32`, so neither subnormals nor infinities can
occur and the binade search always yields a nonnegative scale. -/

/-- Structural `⌊log₂ n⌋` for `n ≥ 1` (fuel-powered; the fuel `n` is an
upper bound on the number of halvings, so it is never exhausted). -/
def floorLog2Go : Nat → Nat → Nat
  | 0, _ => 0
  | fuel + 1, n => if 2 ≤ n then floorLog2Go fuel (n / 2) + 1 else 0

/-- `⌊log₂ n⌋` for `n ≥ 1` (and 0 at 0). -/
def floorLog2 (n : Nat) : Nat := floorLog2Go n n

/-- Smallest `j` with `d ≤ n * 2^j`, for `0 < n` (fuel-powered; `j` is at
most `d`, so fuel `d` is never exhausted).  This locates the binade of a
positive rational `n / d < 1`. -/
def shiftUpGo : Nat → Nat → Nat → Nat
  | 0, _, _ => 0
  | fuel + 1, n, d => if 0 < n ∧ n < d then shiftUpGo fuel (2 * n) d + 1 else 0

/-- Smallest `j` with `d ≤ n * 2^j`, for `0 < n ≤ d`. -/
def shiftUp (n d : Nat) : Nat := shiftUpGo d n d

/-- Round `a / b` to the nearest integer, ties to even. -/
def roundHalfEven (a b : Nat) : Nat :=
  let f := a / b
  let r := a % b
  if b < 2 * r ∨ (2 * r = b ∧ f % 2 = 1) then f + 1 else f

/-- Round the positive rational `a / b` (assumed `< 2^23`, as all inputs in
this development are) to the nearest binary32 value, ties to even.  The
result is returned as `(m, q)` with value `m / 2^q`: the significand `m` is
the half-even rounding of `a * 2^q / b` where `q` places `a / b` in
`[2^23, 2^24)`. -/
def roundF32Frac (a b : Nat) : Nat × Nat :=
  if a = 0 then (0, 0)
  else
    let L : Int := if b ≤ a then (floorLog2 (a / b) : Int) else -(shiftUp a b : Int)
    let q : Nat := (23 - L).toNat
    (roundHalfEven (a * 2 ^ q) b, q)

/-- Numeric value of an ASCII digit character. -/
def digitVal (c : Char) : Nat := c.toNat - 48

/-- `c.is_ascii_digit()`. -/
def isAsciiDigit (c : Char) : Bool := 48 ≤ c.toNat && c.toNat ≤ 57

/-- `fn parse_fractional_str(s: &str) -> i64` on a fractional substring of
ASCII digits: value of the buffer `"0.xxxx"` (first four characters of
`s`, right-padded with `'0'`) after decimal→`f32` conversion,
multiplication by `10000.0f32`, and truncating cast to `i64` (the values
involved are tiny, so the saturation of Rust's `as` cast is never hit). -/
def parse_fractional_str (s : List Char) : Int :=
  let t := s.take 4
  let padded := t ++ List.replicate (4 - t.length) '0'
  let xxxx : Nat := padded.foldl (fun acc c => 10 * acc + digitVal c) 0
  let fp := roundF32Frac xxxx (10 ^ 4)
  let prod := roundF32Frac (fp.1 * 10 ^ 4) (2 ^ fp.2)
  ((prod.1 / 2 ^ prod.2 : Nat) : Int)

/-- Result channel of `Amount::deserialize`: a parsed amount, a serde
error (`Err(...)`), or a Rust `panic!` (the `.expect(...)` calls abort the
process instead of surfacing an `Err`). -/
inductive ParseOutcome where
  | ok (a : Amount)
  | err
  | panic
deriving DecidableEq, Repr

/-- `i64::from_str_radix(s, 10)`: an optional `'+'`/`'-'` sign followed by
at least one ASCII digit, with the signed value required to fit in
`[-2^63, 2^63)` (out-of-range input is a `PosOverflow`/`NegOverflow`
error).  `none` models `Err(ParseIntError)`. -/
def from_str_radix10 (s : List Char) : Option Int :=
  let signDigits : Int × List Char :=
    match s with
    | c :: rest => if c = '+' then (1, rest) else if c = '-' then (-1, rest) else (1, s)
    | [] => (1, [])
  let sign := signDigits.1
  let ds := signDigits.2
  if ds.isEmpty || !ds.all isAsciiDigit then none
  else
    let v : Int := sign * ((ds.foldl (fun acc c => 10 * acc + digitVal c) 0 : Nat) : Int)
    if -(2 ^ 63) ≤ v ∧ v < 2 ^ 63 then some v else none

/-- `impl Deserialize for Amount`, applied to an already-extracted string:
split on `'.'` (any parts beyond the second are silently ignored by the
source, which calls `it.next()` only twice); parse the part before the dot
with `from_str_radix` — a failure there hits `.expect(...)`, i.e. a panic,
not the `Err` branch (which is unreachable: `split` always yields at least
one part).  Without a fractional part the result is `Amount::new(trunc)` —
the raw integer, NOT scaled by `AMOUNT_ONE` (a source slip).  With a
fractional part the result is `Amount::new(trunc * AMOUNT_ONE + fract)`
with `fract` from `parse_fractional_str`.  A buffer character that is not
an ASCII digit makes `f32::from_str` fail and hence panics via the second
`.expect` (Rust would additionally accept exponent forms such as `"5e20"`
inside the four-character window; no claim exercises those, and no claim
reaches integer parts large enough for `trunc * AMOUNT_ONE` to overflow). -/
def Amount.deserialize (s : List Char) : ParseOutcome :=
  match s.splitOn '.' with
  | [] => ParseOutcome.err
  | trunc_str :: rest =>
    match from_str_radix10 trunc_str with
    | none => ParseOutcome.panic
    | some trunc =>
      match rest with
      | [] => ParseOutcome.ok (Amount.new trunc)
      | fract_str :: _ =>
        let t := fract_str.take 4
        let padded := t ++ List.replicate (4 - t.length) '0'
        if padded.all isAsciiDigit then
          ParseOutcome.ok (Amount.new (trunc * AMOUNT_ONE + parse_fractional_str fract_str))
        else ParseOutcome.panic

/-! ### Per-account ledger (`src/client.rs`) -/

/-- `pub enum ClientTransactionType`. -/
inductive ClientTransactionType where
  | Deposit
  | Withdrawal
  | Dispute
  | Resolve
  | Chargeback
deriving DecidableEq, BEq, Repr

instance : LawfulBEq ClientTransactionType where
  eq_of_beq := by intro a b h; cases a <;> cases b <;> first | rfl | exact absurd h (by decide)
  rfl := by intro a; cases a <;> rfl

/-- `pub struct ClientTransaction { id, tx_type, amount: Option<Amount> }`. -/
structure ClientTransaction where
  id : TransactionId
  tx_type : ClientTransactionType
  amount : Option Amount
deriving DecidableEq, Repr

/-- `ClientTransaction::deposit`. -/
def ClientTransaction.deposit (id : TransactionId) (amount : Amount) : ClientTransaction :=
  ⟨id, ClientTransactionType.Deposit, some amount⟩

/-- `ClientTransaction::withdrawal`. -/
def ClientTransaction.withdrawal (id : TransactionId) (amount : Amount) : ClientTransaction :=
  ⟨id, ClientTransactionType.Withdrawal, some amount⟩

/-- `ClientTransaction::dispute`. -/
def ClientTransaction.dispute (id : TransactionId) : ClientTransaction :=
  ⟨id, ClientTransactionType.Dispute, none⟩

/-- `ClientTransaction::resolve`. -/
def ClientTransaction.resolve (id : TransactionId) : ClientTransaction :=
  ⟨id, ClientTransactionType.Resolve, none⟩

/-- `ClientTransaction::chargeback`. -/
def ClientTransaction.chargeback (id : TransactionId) : ClientTransaction :=
  ⟨id, ClientTransactionType.Chargeback, none⟩

/-- `Option::unwrap` on the `amount` field.  Rust aborts on `None`; every
transaction built through the five public constructors carries `Some` in
exactly the arms that call `unwrap` (see the causal invariant below), so
the default is never observed in reachable histories. -/
def unwrapAmount (o : Option Amount) : Amount := o.getD (Amount.new 0)

/-- The closure passed to `find` in the `Dispute` arms: an entry with the
given id whose kind is `Deposit` or `Withdrawal`. -/
def txMatchesDepositWithdrawal (id : TransactionId) (other_tx : ClientTransaction) : Bool :=
  other_tx.id == id &&
    (other_tx.tx_type == ClientTransactionType.Deposit ||
      other_tx.tx_type == ClientTransactionType.Withdrawal)

/-- The closure passed to `find` in the `Resolve`/`Chargeback` arm: an
entry with the given id whose kind is `Dispute`. -/
def txMatchesDispute (id : TransactionId) (other_tx : ClientTransaction) : Bool :=
  other_tx.id == id && other_tx.tx_type == ClientTransactionType.Dispute

/-- `pub struct Client { id, transactions: Vec<ClientTransaction> }`. -/
structure Client where
  id : ClientId
  transactions : List ClientTransaction
deriving DecidableEq, Repr

/-- `Client::new`. -/
def Client.new (id : ClientId) : Client := ⟨id, []⟩

/-- `Client::add_transaction`: the acceptance step.  Deposits and
withdrawals are retained iff their amount is nonzero; a dispute is
retained iff some retained deposit/withdrawal has the same id; a resolve
or chargeback is retained iff some retained dispute has the same id.
Rejected records are dropped silently (the function returns `()` in Rust —
there is no error channel). -/
def Client.add_transaction (c : Client) (transaction : ClientTransaction) : Client :=
  match transaction.tx_type with
  | ClientTransactionType.Deposit | ClientTransactionType.Withdrawal =>
    if unwrapAmount transaction.amount ≠ Amount.new 0 then
      { c with transactions := c.transactions ++ [transaction] }
    else c
  | ClientTransactionType.Dispute =>
    if (c.transactions.find? (txMatchesDepositWithdrawal transaction.id)).isSome then
      { c with transactions := c.transactions ++ [transaction] }
    else c
  | ClientTransactionType.Resolve | ClientTransactionType.Chargeback =>
    if (c.transactions.find? (txMatchesDispute transaction.id)).isSome then
      { c with transactions := c.transactions ++ [transaction] }
    else c

/-- The running state of the replay loop in `Client::get_entry`:
`available`, `held`, `locked`, and the `disputed: HashMap<TransactionId,
Amount>` working map (embedded as an association list with replacing
insert). -/
structure ReplayState where
  available : Amount
  held : Amount
  locked : Bool
  disputed : List (TransactionId × Amount)
deriving DecidableEq, Repr

/-- Initial replay state: both balances zero, unlocked, no open dispute. -/
def ReplayState.init : ReplayState := ⟨Amount.new 0, Amount.new 0, false, []⟩

/-- `HashMap::insert`: replace any existing binding for the key. -/
def disputedInsert (m : List (TransactionId × Amount)) (k : TransactionId) (v : Amount) :
    List (TransactionId × Amount) :=
  (k, v) :: m.filter (fun p => !(p.1 == k))

/-- `HashMap::remove`. -/
def disputedRemove (m : List (TransactionId × Amount)) (k : TransactionId) :
    List (TransactionId × Amount) :=
  m.filter (fun p => !(p.1 == k))

/-- One iteration of the `for tx in &self.transactions` loop in
`Client::get_entry`.  `transactions` is the whole history (the `Dispute`
arm looks the referenced deposit/withdrawal up in `self.transactions`, not
in the prefix already replayed). -/
def replayStep (transactions : List ClientTransaction) (s : ReplayState)
    (tx : ClientTransaction) : ReplayState :=
  match tx.tx_type with
  | ClientTransactionType.Deposit =>
    let amount := unwrapAmount tx.amount
    { s with available := s.available.add amount }
  | ClientTransactionType.Withdrawal =>
    let amount := unwrapAmount tx.amount
    if amount.value ≤ s.available.value ∧ s.locked = false then
      { s with available := s.available.sub amount }
    else s
  | ClientTransactionType.Dispute =>
    match transactions.find? (txMatchesDepositWithdrawal tx.id) with
    | some tx_found =>
      let amount0 := unwrapAmount tx_found.amount
      let amount :=
        if tx_found.tx_type == ClientTransactionType.Withdrawal then
          (Amount.new 0).sub amount0
        else amount0
      { s with
          disputed := disputedInsert s.disputed tx.id amount
          available := s.available.sub amount
          held := s.held.add amount }
    | none => s
  | ClientTransactionType.Resolve =>
    match s.disputed.lookup tx.id with
    | some amount =>
      { s with
          held := s.held.sub amount
          available := s.available.add amount
          disputed := disputedRemove s.disputed tx.id }
    | none => s
  | ClientTransactionType.Chargeback =>
    match s.disputed.lookup tx.id with
    | some amount =>
      { s with
          locked := true
          held := s.held.sub amount
          disputed := disputedRemove s.disputed tx.id }
    | none => s

/-- `pub struct ClientEntry { id, available, held, locked }` (the snapshot;
`total` is derived as `available + held` only when displayed). -/
structure ClientEntry where
  id : ClientId
  available : Amount
  held : Amount
  locked : Bool
deriving DecidableEq, Repr

/-- `ClientEntry::new`. -/
def ClientEntry.new (id : ClientId) (available held : Amount) (locked : Bool) : ClientEntry :=
  ⟨id, available, held, locked⟩

/-- `Client::get_entry`: replay the whole retained history from the zero
state and package the final running state as a snapshot. -/
def Client.get_entry (c : Client) : ClientEntry :=
  let final := c.transactions.foldl (replayStep c.transactions) ReplayState.init
  ClientEntry.new c.id final.available final.held final.locked

/-- `replayStep` at machine precision: the same loop body with every
balance addition and subtraction performed as wrapping `i64` arithmetic
(`Amount.addI64`/`Amount.subI64`); this is what the compiled release
binary computes, and a debug build aborts exactly where the wrap
diverges from the exact value. -/
def replayStepI64 (transactions : List ClientTransaction) (s : ReplayState)
    (tx : ClientTransaction) : ReplayState :=
  match tx.tx_type with
  | ClientTransactionType.Deposit =>
    let amount := unwrapAmount tx.amount
    { s with available := s.available.addI64 amount }
  | ClientTransactionType.Withdrawal =>
    let amount := unwrapAmount tx.amount
    if amount.value ≤ s.available.value ∧ s.locked = false then
      { s with available := s.available.subI64 amount }
    else s
  | ClientTransactionType.Dispute =>
    match transactions.find? (txMatchesDepositWithdrawal tx.id) with
    | some tx_found =>
      let amount0 := unwrapAmount tx_found.amount
      let amount :=
        if tx_found.tx_type == ClientTransactionType.Withdrawal then
          (Amount.new 0).subI64 amount0
        else amount0
      { s with
          disputed := disputedInsert s.disputed tx.id amount
          available := s.available.subI64 amount
          held := s.held.addI64 amount }
    | none => s
  | ClientTransactionType.Resolve =>
    match s.disputed.lookup tx.id with
    | some amount =>
      { s with
          held := s.held.subI64 amount
          available := s.available.addI64 amount
          disputed := disputedRemove s.disputed tx.id }
    | none => s
  | ClientTransactionType.Chargeback =>
    match s.disputed.lookup tx.id with
    | some amount =>
      { s with
          locked := true
          held := s.held.subI64 amount
          disputed := disputedRemove s.disputed tx.id }
    | none => s

/-- `Client::get_entry` at machine precision: the replay with wrapping
`i64` balance arithmetic (see `replayStepI64`). -/
def Client.get_entryI64 (c : Client) : ClientEntry :=
  let final := c.transactions.foldl (replayStepI64 c.transactions) ReplayState.init
  ClientEntry.new c.id final.available final.held final.locked

/-- Feeding a whole record sequence to one account, in input order. -/
def Client.applyAll (c : Client) (l : List ClientTransaction) : Client :=
  l.foldl Client.add_transaction c

/-- Well-formedness of a single transaction record as produced by the five
public constructors: deposits and withdrawals carry an amount (so the
`unwrap` calls in `client.rs` cannot abort on them). -/
def WfTx (tx : ClientTransaction) : Prop :=
  (tx.tx_type = ClientTransactionType.Deposit ∨
      tx.tx_type = ClientTransactionType.Withdrawal) →
    tx.amount.isSome = true

/-- All entries of a history are well-formed. -/
def WfHistory (ts : List ClientTransaction) : Prop := ∀ t ∈ ts, WfTx t

/-- Position `i` of the history has its causally valid predecessor
strictly earlier: a dispute is preceded by a deposit/withdrawal with the
same id, a resolve/chargeback by a dispute with the same id. -/
def causalOkAt (ts : List ClientTransaction) (i : Nat) (h : i < ts.length) : Prop :=
  (ts[i].tx_type = ClientTransactionType.Dispute →
      ∃ t ∈ ts.take i, txMatchesDepositWithdrawal ts[i].id t = true) ∧
  ((ts[i].tx_type = ClientTransactionType.Resolve ∨
        ts[i].tx_type = ClientTransactionType.Chargeback) →
      ∃ t ∈ ts.take i, txMatchesDispute ts[i].id t = true)

/-- The causal-predecessor invariant of a retained history. -/
def causalInv (ts : List ClientTransaction) : Prop :=
  ∀ i (h : i < ts.length), causalOkAt ts i h

instance (tx : ClientTransaction) : Decidable (WfTx tx) :=
  inferInstanceAs (Decidable ((tx.tx_type = ClientTransactionType.Deposit ∨
      tx.tx_type = ClientTransactionType.Withdrawal) → tx.amount.isSome = true))

instance (ts : List ClientTransaction) (i : Nat) (h : i < ts.length) :
    Decidable (causalOkAt ts i h) :=
  inferInstanceAs (Decidable (_ ∧ _))

instance (ts : List ClientTransaction) : Decidable (causalInv ts) :=
  Nat.decidableBallLT _ _

/-! ## Helper lemmas -/

theorem causalInv_nil : causalInv [] := by
  intro i h
  simp at h

theorem causalInv_append (ts : List ClientTransaction) (tx : ClientTransaction)
    (hc : causalInv ts)
    (hd : tx.tx_type = ClientTransactionType.Dispute →
      ∃ t ∈ ts, txMatchesDepositWithdrawal tx.id t = true)
    (hr : (tx.tx_type = ClientTransactionType.Resolve ∨
        tx.tx_type = ClientTransactionType.Chargeback) →
      ∃ t ∈ ts, txMatchesDispute tx.id t = true) :
    causalInv (ts ++ [tx]) := by
  intro i h
  by_cases hi : i < ts.length
  · have hget : (ts ++ [tx])[i] = ts[i] := List.getElem_append_left hi
    have htake : (ts ++ [tx]).take i = ts.take i := by
      rw [List.take_append_eq_append_take, Nat.sub_eq_zero_of_le (Nat.le_of_lt hi)]
      simp
    unfold causalOkAt
    rw [hget, htake]
    exact hc i hi
  · have hieq : i = ts.length := by
      have hlen : i < ts.length + 1 := by simpa using h
      omega
    subst hieq
    have hget : (ts ++ [tx])[ts.length] = tx := List.getElem_concat_length ts tx _ rfl h
    have htake : (ts ++ [tx]).take ts.length = ts := List.take_left ts [tx]
    unfold causalOkAt
    rw [hget, htake]
    exact ⟨hd, hr⟩

theorem wfHistory_append (ts : List ClientTransaction) (tx : ClientTransaction)
    (hw : WfHistory ts) (htx : WfTx tx) : WfHistory (ts ++ [tx]) := by
  intro t ht
  rcases List.mem_append.mp ht with h | h
  · exact hw t h
  · have heq : t = tx := by simpa using h
    subst heq
    exact htx

theorem add_transaction_preserves (c : Client) (tx : ClientTransaction)
    (hc : causalInv c.transactions) (hw : WfHistory c.transactions) (htx : WfTx tx) :
    causalInv (c.add_transaction tx).transactions ∧
      WfHistory (c.add_transaction tx).transactions := by
  cases htype : tx.tx_type <;>
    simp only [Client.add_transaction, htype] <;>
    split <;>
    first
      | exact ⟨hc, hw⟩
      | · rename_i hcond
          refine ⟨causalInv_append _ _ hc (fun hdisp => ?_) (fun hrc => ?_),
            wfHistory_append _ _ hw htx⟩ <;>
            first
              | exact List.find?_isSome.mp hcond
              | simp [htype] at hdisp
              | (rcases hrc with hrc | hrc <;> simp [htype] at hrc)

theorem applyAll_preserves (l : List ClientTransaction) :
    ∀ c : Client, causalInv c.transactions → WfHistory c.transactions →
      (∀ tx ∈ l, WfTx tx) →
      causalInv (c.applyAll l).transactions ∧ WfHistory (c.applyAll l).transactions := by
  induction l with
  | nil => exact fun c h1 h2 _ => ⟨h1, h2⟩
  | cons x xs ih =>
    intro c h1 h2 hl
    have hx : WfTx x := hl x (List.mem_cons_self x xs)
    have hstep := add_transaction_preserves c x h1 h2 hx
    have hrest := ih (c.add_transaction x) hstep.1 hstep.2
      (fun tx ht => hl tx (List.mem_cons_of_mem x ht))
    simpa [Client.applyAll] using hrest

/-! ## Claim theorems (continued) -/

/-- C1: replaying the history deposit(tx1, 1.0000); withdrawal(tx2,
0.5000); dispute(tx1); chargeback(tx1) yields, after each record (scaled
by `10^4`): available=1, held=0; then available=0.5; then available=-0.5,
held=1; then available=-0.5, held=0, locked=true, total=-0.5 — the
chargeback forfeits the held amount without restoring available. -/
theorem C1_dispute_withdrawal_scenario :
    (((Client.new 1).applyAll
        [ClientTransaction.deposit 1 (Amount.new 10000)]).get_entry.available
        = Amount.new 10000 ∧
      ((Client.new 1).applyAll
        [ClientTransaction.deposit 1 (Amount.new 10000)]).get_entry.held = Amount.new 0) ∧
    ((Client.new 1).applyAll
        [ClientTransaction.deposit 1 (Amount.new 10000),
          ClientTransaction.withdrawal 2 (Amount.new 5000)]).get_entry.available
      = Amount.new 5000 ∧
    (((Client.new 1).applyAll
        [ClientTransaction.deposit 1 (Amount.new 10000),
          ClientTransaction.withdrawal 2 (Amount.new 5000),
          ClientTransaction.dispute 1]).get_entry.available = Amount.new (-5000) ∧
      ((Client.new 1).applyAll
        [ClientTransaction.deposit 1 (Amount.new 10000),
          ClientTransaction.withdrawal 2 (Amount.new 5000),
          ClientTransaction.dispute 1]).get_entry.held = Amount.new 10000) ∧
    (((Client.new 1).applyAll
        [ClientTransaction.deposit 1 (Amount.new 10000),
          ClientTransaction.withdrawal 2 (Amount.new 5000),
          ClientTransaction.dispute 1,
          ClientTransaction.chargeback 1]).get_entry.available = Amount.new (-5000) ∧
      ((Client.new 1).applyAll
        [ClientTransaction.deposit 1 (Amount.new 10000),
          ClientTransaction.withdrawal 2 (Amount.new 5000),
          ClientTransaction.dispute 1,
          ClientTransaction.chargeback 1]).get_entry.held = Amount.new 0 ∧
      ((Client.new 1).applyAll
        [ClientTransaction.deposit 1 (Amount.new 10000),
          ClientTransaction.withdrawal 2 (Amount.new 5000),
          ClientTransaction.dispute 1,
          ClientTransaction.chargeback 1]).get_entry.locked = true ∧
      (((Client.new 1).applyAll
        [ClientTransaction.deposit 1 (Amount.new 10000),
          ClientTransaction.withdrawal 2 (Amount.new 5000),
          ClientTransaction.dispute 1,
          ClientTransaction.chargeback 1]).get_entry.available).add
        (((Client.new 1).applyAll
          [ClientTransaction.deposit 1 (Amount.new 10000),
            ClientTransaction.withdrawal 2 (Amount.new 5000),
            ClientTransaction.dispute 1,
            ClientTransaction.chargeback 1]).get_entry.held) = Amount.new (-5000)) := by
  decide

/-- C2 (failing): `format ∘ parse` is NOT the canonical-form identity on
valid decimal strings.  `"1"` (no fractional part) parses to the raw
scaled value 1, i.e. 0.0001 units, because the no-fraction branch of
`Amount::deserialize` forgets to multiply by `AMOUNT_ONE`; and `"0.0007"`
parses to scaled 6 because the `f32` detour in `parse_fractional_str`
rounds `0.0007 × 10000` to 6.9999995, which the `as i64` cast truncates
to 6.  So the round trips produce `"0.0001"` and `"0.0006"`. -/
theorem C2_parse_format_not_roundtrip :
    Amount.deserialize (String.toList "1") = ParseOutcome.ok (Amount.new 1) ∧
    (Amount.new 1).format = "0.0001" ∧
    Amount.deserialize (String.toList "0.0007") = ParseOutcome.ok (Amount.new 6) ∧
    (Amount.new 6).format = "0.0006" := by
  decide

/-- C3 (failing): a string whose integer part is not a valid integer
literal (`"abc"`, or the empty string) makes `Amount::deserialize` abort
by panic — the `.expect("could not parse whole part of amount")` — rather
than return the `Err` value the claim describes (the `Err` branch of the
source is unreachable because `split('.')` always yields a first part). -/
theorem C3_malformed_amount_panics :
    Amount.deserialize (String.toList "abc") = ParseOutcome.panic ∧
    Amount.deserialize (String.toList "") = ParseOutcome.panic ∧
    ParseOutcome.panic ≠ ParseOutcome.err := by
  decide

/-- C4 counterexample: at the lower edge of `i64`, subtraction cannot
return the exact difference: `(-2^63) - 1` is negative, yet the machine
subtraction wraps (release profile; a debug build aborts) instead of
producing it. -/
theorem C4_sub_overflow_counterexample :
    Amount.subI64 (Amount.new (-(2 ^ 63))) (Amount.new 1) ≠ Amount.new (-(2 ^ 63) - 1) := by
  decide

/-- C4 (amended): whenever the exact scaled-integer difference fits in
`i64` — in particular whenever the result is merely negative but in
range — subtraction returns it exactly, with no panic or trap; only a
difference outside `[-2^63, 2^63)` is subject to overflow semantics. -/
theorem C4_sub_exact_in_range (a b : Amount)
    (h1 : -(2 ^ 63) ≤ a.value - b.value) (h2 : a.value - b.value < 2 ^ 63) :
    Amount.subI64 a b = Amount.new (a.value - b.value) := by
  have h : (a.value - b.value + 2 ^ 63) % 2 ^ 64 = a.value - b.value + 2 ^ 63 :=
    Int.emod_eq_of_lt (by omega) (by omega)
  simp only [Amount.subI64, wrapI64, Amount.new, h]
  congr 1
  omega

/-- C4 witness: `1.0000 - 1.0001` is in range and evaluates to the exact
negative difference `-0.0001`. -/
theorem C4_sub_exact_in_range_witness :
    (-(2 ^ 63) ≤ (Amount.new 10000).value - (Amount.new 10001).value) ∧
    ((Amount.new 10000).value - (Amount.new 10001).value < 2 ^ 63) ∧
    Amount.subI64 (Amount.new 10000) (Amount.new 10001)
      = Amount.new ((Amount.new 10000).value - (Amount.new 10001).value) :=
  ⟨by decide, by decide,
    C4_sub_exact_in_range (Amount.new 10000) (Amount.new 10001) (by decide) (by decide)⟩

/-- C5 (failing): a negative `Amount` strictly between -1 and 0 units
loses its sign when formatted: the truncated integer part of scaled -5000
is 0, so `Display` prints `"0.5"` with no leading `-` (the repository's
own `negative_available_funds` test expects `"-0.5"` here).  For values at
or below -1 with a nonzero fractional remainder the claim's rendering does
hold, e.g. scaled -10100 prints `"-1.01"`. -/
theorem C5_display_drops_sign_between_minus_one_and_zero :
    (Amount.new (-5000)).format = "0.5" ∧
    (Amount.new (-10100)).format = "-1.01" := by
  decide

/-- C6: a deposit or withdrawal of amount 0 is silently dropped by
`add_transaction` — the account is returned unchanged — so every snapshot
derived after any further records (in particular after a later dispute
citing the zero transaction's id) is exactly what it would have been had
the zero record never been submitted. -/
theorem C6_zero_amount_silently_dropped (c : Client) (tid : TransactionId)
    (rest : List ClientTransaction) :
    c.add_transaction (ClientTransaction.deposit tid (Amount.new 0)) = c ∧
    c.add_transaction (ClientTransaction.withdrawal tid (Amount.new 0)) = c ∧
    (c.add_transaction (ClientTransaction.deposit tid (Amount.new 0))).applyAll rest
      = c.applyAll rest ∧
    ((c.add_transaction (ClientTransaction.deposit tid (Amount.new 0))).applyAll rest).get_entry
      = (c.applyAll rest).get_entry ∧
    (c.add_transaction (ClientTransaction.withdrawal tid (Amount.new 0))).applyAll rest
      = c.applyAll rest := by
  have hd : c.add_transaction (ClientTransaction.deposit tid (Amount.new 0)) = c := by
    simp [Client.add_transaction, ClientTransaction.deposit, unwrapAmount]
  have hw : c.add_transaction (ClientTransaction.withdrawal tid (Amount.new 0)) = c := by
    simp [Client.add_transaction, ClientTransaction.withdrawal, unwrapAmount]
  exact ⟨hd, hw, by rw [hd], by rw [hd], by rw [hw]⟩

/-- C7: under a locked replay state, a withdrawal entry is a complete
no-op regardless of the available balance, while a deposit entry still
adds its amount to available exactly as when unlocked; and no entry ever
clears the locked flag, so once a chargeback sets it, all later entries of
the replay see it. -/
theorem C7_locked_blocks_withdrawals_not_deposits
    (txs : List ClientTransaction) (s : ReplayState) (tx : ClientTransaction)
    (hlock : s.locked = true) :
    (tx.tx_type = ClientTransactionType.Withdrawal → replayStep txs s tx = s) ∧
    (tx.tx_type = ClientTransactionType.Deposit →
      replayStep txs s tx = { s with available := s.available.add (unwrapAmount tx.amount) }) ∧
    (replayStep txs s tx).locked = true := by
  refine ⟨fun h => ?_, fun h => ?_, ?_⟩
  · simp [replayStep, h, hlock]
  · simp [replayStep, h]
  · cases htype : tx.tx_type <;> simp only [replayStep, htype] <;>
      first
        | exact hlock
        | (split <;> simp [hlock])

/-- C8: a dispute with no retained deposit/withdrawal bearing its id, or a
resolve/chargeback with no retained dispute bearing its id, is rejected by
`add_transaction` with no observable effect: the account (hence its
history and every snapshot derived from it) is exactly as before, and no
error is surfaced (the function is total). -/
theorem C8_unreferenced_record_is_noop (c : Client) (tx : ClientTransaction)
    (h : (tx.tx_type = ClientTransactionType.Dispute ∧
            (c.transactions.find? (txMatchesDepositWithdrawal tx.id)).isSome = false) ∨
         ((tx.tx_type = ClientTransactionType.Resolve ∨
              tx.tx_type = ClientTransactionType.Chargeback) ∧
            (c.transactions.find? (txMatchesDispute tx.id)).isSome = false)) :
    c.add_transaction tx = c ∧
    (c.add_transaction tx).transactions = c.transactions ∧
    (c.add_transaction tx).get_entry = c.get_entry := by
  have he : c.add_transaction tx = c := by
    rcases h with ⟨ht, hf⟩ | ⟨ht | ht, hf⟩ <;> simp [Client.add_transaction, ht, hf]
  exact ⟨he, by rw [he], by rw [he]⟩

/-- C8 witness: a dispute citing id 7 on a fresh (empty-history) account
leaves the account unchanged. -/
theorem C8_unreferenced_record_is_noop_witness :
    ((ClientTransaction.dispute 7).tx_type = ClientTransactionType.Dispute ∧
      (((Client.new 1).transactions.find?
          (txMatchesDepositWithdrawal (ClientTransaction.dispute 7).id)).isSome = false)) ∧
    ((Client.new 1).add_transaction (ClientTransaction.dispute 7) = Client.new 1 ∧
      ((Client.new 1).add_transaction (ClientTransaction.dispute 7)).transactions
        = (Client.new 1).transactions ∧
      ((Client.new 1).add_transaction (ClientTransaction.dispute 7)).get_entry
        = (Client.new 1).get_entry) :=
  ⟨⟨rfl, by decide⟩,
    C8_unreferenced_record_is_noop (Client.new 1) (ClientTransaction.dispute 7)
      (Or.inl ⟨rfl, by decide⟩)⟩

/-- C10 counterexample: the claim's unconditional snapshot values fail at
the in-range amount `a = Amount::new(2^62)`.  The history deposit(7, a);
dispute(7); dispute(7) is retained exactly as the claim describes, but the
second dispute's `held += amount` computes `2^62 + 2^62 = 2^63`, which the
machine `i64` addition wraps to `-2^63` (a debug build aborts there), so
the replayed snapshot's held is `-2^63`, not `2·a = 2^63`. -/
theorem C10_double_dispute_overflow_counterexample :
    ((Client.new 1).applyAll
        [ClientTransaction.deposit 7 (Amount.new (2 ^ 62)), ClientTransaction.dispute 7,
          ClientTransaction.dispute 7]).transactions
      = [ClientTransaction.deposit 7 (Amount.new (2 ^ 62)), ClientTransaction.dispute 7,
          ClientTransaction.dispute 7] ∧
    ((Client.new 1).applyAll
        [ClientTransaction.deposit 7 (Amount.new (2 ^ 62)), ClientTransaction.dispute 7,
          ClientTransaction.dispute 7]).get_entryI64.held = Amount.new (-(2 ^ 63)) ∧
    Amount.new (-(2 ^ 63)) ≠ Amount.new (2 * (Amount.new (2 ^ 62)).value) := by
  decide

/-- C10 (amended): acceptance of a dispute only requires some retained
deposit/withdrawal with the referenced id — it does not require the id to
be currently undisputed — so after deposit(t, a) two disputes of t are
both retained and each replay of the dispute moves the amount again:
provided the doubled amount `2·a` fits in `i64`, the machine-precision
replay shows available = -a and held = 2a with the account unlocked
(dispute application is not idempotent).  Outside that range the `i64`
additions wrap (release) or abort (debug), as the counterexample above
shows. -/
theorem C10_double_dispute_not_idempotent (t : TransactionId) (a : Amount)
    (ha : ¬ a = Amount.new 0)
    (h1 : -(2 ^ 63) ≤ 2 * a.value) (h2 : 2 * a.value < 2 ^ 63) :
    let c := (Client.new 1).applyAll
      [ClientTransaction.deposit t a, ClientTransaction.dispute t, ClientTransaction.dispute t]
    c.transactions
      = [ClientTransaction.deposit t a, ClientTransaction.dispute t,
          ClientTransaction.dispute t] ∧
    c.get_entryI64.available = Amount.new (-a.value) ∧
    c.get_entryI64.held = Amount.new (2 * a.value) ∧
    c.get_entryI64.locked = false := by
  intro c
  have hc : c.transactions
      = [ClientTransaction.deposit t a, ClientTransaction.dispute t,
          ClientTransaction.dispute t] := by
    simp [c, Client.applyAll, Client.new, Client.add_transaction, ClientTransaction.deposit,
      ClientTransaction.dispute, unwrapAmount, txMatchesDepositWithdrawal, List.find?, ha]
  refine ⟨hc, ?_, ?_, ?_⟩ <;>
    simp [Client.get_entryI64, hc, replayStepI64, ClientTransaction.deposit,
      ClientTransaction.dispute, txMatchesDepositWithdrawal, List.find?, unwrapAmount,
      ReplayState.init, Amount.addI64, Amount.subI64, wrapI64, Amount.new, disputedInsert,
      ClientEntry.new] <;>
    omega

/-- C10 witness: the double dispute of a 1.0000 deposit is far inside the
`i64` range and yields available = -1.0000 and held = 2.0000. -/
theorem C10_double_dispute_not_idempotent_witness :
    (¬ Amount.new 10000 = Amount.new 0) ∧
    (-(2 ^ 63) ≤ 2 * (Amount.new 10000).value) ∧
    (2 * (Amount.new 10000).value < 2 ^ 63) ∧
    (((Client.new 1).applyAll
        [ClientTransaction.deposit 7 (Amount.new 10000), ClientTransaction.dispute 7,
          ClientTransaction.dispute 7]).transactions
        = [ClientTransaction.deposit 7 (Amount.new 10000), ClientTransaction.dispute 7,
            ClientTransaction.dispute 7] ∧
      ((Client.new 1).applyAll
        [ClientTransaction.deposit 7 (Amount.new 10000), ClientTransaction.dispute 7,
          ClientTransaction.dispute 7]).get_entryI64.available
        = Amount.new (-(Amount.new 10000).value) ∧
      ((Client.new 1).applyAll
        [ClientTransaction.deposit 7 (Amount.new 10000), ClientTransaction.dispute 7,
          ClientTransaction.dispute 7]).get_entryI64.held
        = Amount.new (2 * (Amount.new 10000).value) ∧
      ((Client.new 1).applyAll
        [ClientTransaction.deposit 7 (Amount.new 10000), ClientTransaction.dispute 7,
          ClientTransaction.dispute 7]).get_entryI64.locked = false) :=
  ⟨by decide, by decide, by decide,
    C10_double_dispute_not_idempotent 7 (Amount.new 10000) (by decide) (by decide) (by decide)⟩

/-- C7 witness: a locked state with 1.0000 available; a withdrawal of
0.5000 is a no-op, a deposit of 0.5000 still posts, and the lock
persists. -/
theorem C7_locked_blocks_withdrawals_not_deposits_witness :
    (ReplayState.mk (Amount.new 10000) (Amount.new 0) true []).locked = true ∧
    (((ClientTransaction.withdrawal 2 (Amount.new 5000)).tx_type
          = ClientTransactionType.Withdrawal →
        replayStep [] (ReplayState.mk (Amount.new 10000) (Amount.new 0) true [])
            (ClientTransaction.withdrawal 2 (Amount.new 5000))
          = ReplayState.mk (Amount.new 10000) (Amount.new 0) true []) ∧
      ((ClientTransaction.withdrawal 2 (Amount.new 5000)).tx_type
          = ClientTransactionType.Deposit →
        replayStep [] (ReplayState.mk (Amount.new 10000) (Amount.new 0) true [])
            (ClientTransaction.withdrawal 2 (Amount.new 5000))
          = { ReplayState.mk (Amount.new 10000) (Amount.new 0) true [] with
                available := (Amount.new 10000).add
                  (unwrapAmount (ClientTransaction.withdrawal 2 (Amount.new 5000)).amount) }) ∧
      (replayStep [] (ReplayState.mk (Amount.new 10000) (Amount.new 0) true [])
          (ClientTransaction.withdrawal 2 (Amount.new 5000))).locked = true) :=
  ⟨rfl,
    C7_locked_blocks_withdrawals_not_deposits []
      (ReplayState.mk (Amount.new 10000) (Amount.new 0) true [])
      (ClientTransaction.withdrawal 2 (Amount.new 5000)) rfl⟩

/-- C9: any history reachable from an empty account through
`add_transaction` (fed well-formed records, i.e. records as built by the
five public constructors) satisfies the causal-predecessor invariant:
every retained dispute is preceded by a deposit/withdrawal with the same
id, every retained resolve/chargeback by a dispute with the same id.
Consequently, during replay, the `Dispute` arm's `find` over the history
always succeeds and the transaction it finds carries an amount (`Some`),
so the `unwrap` there cannot abort. -/
theorem C9_causal_invariant_and_dispute_lookup (cid : ClientId)
    (l : List ClientTransaction) (hwf : ∀ tx ∈ l, WfTx tx) :
    causalInv ((Client.new cid).applyAll l).transactions ∧
    (∀ i (h : i < ((Client.new cid).applyAll l).transactions.length),
      ((Client.new cid).applyAll l).transactions[i].tx_type
          = ClientTransactionType.Dispute →
        Option.any (fun f => f.amount.isSome)
          (((Client.new cid).applyAll l).transactions.find?
            (txMatchesDepositWithdrawal
              (((Client.new cid).applyAll l).transactions[i]).id)) = true) := by
  have hbase1 : causalInv (Client.new cid).transactions := causalInv_nil
  have hbase2 : WfHistory (Client.new cid).transactions := by
    intro t ht
    simp [Client.new] at ht
  obtain ⟨hinv, hwfh⟩ := applyAll_preserves l (Client.new cid) hbase1 hbase2 hwf
  refine ⟨hinv, fun i h hdisp => ?_⟩
  have hok := hinv i h
  unfold causalOkAt at hok
  obtain ⟨t0, ht0mem, ht0p⟩ := hok.1 hdisp
  have hmem : t0 ∈ ((Client.new cid).applyAll l).transactions := List.mem_of_mem_take ht0mem
  have hsome :
      (((Client.new cid).applyAll l).transactions.find?
        (txMatchesDepositWithdrawal
          (((Client.new cid).applyAll l).transactions[i]).id)).isSome = true :=
    List.find?_isSome.mpr ⟨t0, hmem, ht0p⟩
  obtain ⟨f, hf⟩ := Option.isSome_iff_exists.mp hsome
  have hpf := List.find?_some hf
  have hfmem := List.mem_of_find?_eq_some hf
  have hwff : WfTx f := hwfh f hfmem
  have hftype : f.tx_type = ClientTransactionType.Deposit ∨
      f.tx_type = ClientTransactionType.Withdrawal := by
    unfold txMatchesDepositWithdrawal at hpf
    rw [Bool.and_eq_true] at hpf
    obtain ⟨-, hor⟩ := hpf
    rw [Bool.or_eq_true] at hor
    rcases hor with h1 | h1
    · exact Or.inl (by simpa using h1)
    · exact Or.inr (by simpa using h1)
  have hamt : f.amount.isSome = true := hwff hftype
  rw [hf]
  simpa [Option.any] using hamt

/-- C9 witness: a deposit followed by a dispute of its id is a
well-formed input sequence whose retained history satisfies the invariant
and whose dispute lookup succeeds with an amount present. -/
theorem C9_causal_invariant_and_dispute_lookup_witness :
    (∀ tx ∈ [ClientTransaction.deposit 1 (Amount.new 10000), ClientTransaction.dispute 1],
        WfTx tx) ∧
    (causalInv ((Client.new 1).applyAll
        [ClientTransaction.deposit 1 (Amount.new 10000),
          ClientTransaction.dispute 1]).transactions ∧
      (∀ i (h : i < ((Client.new 1).applyAll
          [ClientTransaction.deposit 1 (Amount.new 10000),
            ClientTransaction.dispute 1]).transactions.length),
        ((Client.new 1).applyAll
            [ClientTransaction.deposit 1 (Amount.new 10000),
              ClientTransaction.dispute 1]).transactions[i].tx_type
            = ClientTransactionType.Dispute →
          Option.any (fun f => f.amount.isSome)
            (((Client.new 1).applyAll
                [ClientTransaction.deposit 1 (Amount.new 10000),
                  ClientTransaction.dispute 1]).transactions.find?
              (txMatchesDepositWithdrawal
                (((Client.new 1).applyAll
                    [ClientTransaction.deposit 1 (Amount.new 10000),
                      ClientTransaction.dispute 1]).transactions[i]).id)) = true)) :=
  ⟨by decide,
    C9_causal_invariant_and_dispute_lookup 1
      [ClientTransaction.deposit 1 (Amount.new 10000), ClientTransaction.dispute 1]
      (by decide)⟩

end RustCsv
